import Mathlib

/-!
# Verification of the lol-match-crawler rate-limit client

A shallow embedding of the core of `lol-match-crawler` (a rate-limit-aware
Riot API client with a match-history crawler) together with proofs about it.

Modelling conventions:
* `tokio::time::Instant` and `tokio::time::Duration` are modelled as `Nat`
  nanosecond values.  `Instant::elapsed()` becomes explicit `now - start`
  with a `now : Nat` parameter threaded to every function that reads the
  clock (`Instant::now()` / `CooldownState::new` / `chrono::Utc::now()`).
* wall-clock millisecond timestamps (`i64`) are modelled as `Int`.
* `u64` header values are modelled as `Nat` (the code performs no
  arithmetic on them, so overflow cannot occur).
* A Rust panic (`unwrap`/`assert!` failure, `Duration::checked_mul(..).unwrap()`)
  is modelled by returning `none` from an `Option`-valued function.
* The `HashMap<u64, RateLimitBucket>` of an endpoint is modelled as an
  association list with unique keys (`bfind` / `bset`).
-/

namespace LolMatchCrawler

/-- `tokio::time::Duration` maximum value, in nanoseconds:
`u64::MAX` seconds plus `999_999_999` nanoseconds. -/
def durationMaxNanos : Nat := 18446744073709551615 * 1000000000 + 999999999

/-- `Duration::checked_mul(2)`: `some (2*d)` when representable, otherwise
`none` (the Rust call returns `None` on overflow). -/
def checkedMul2 (d : Nat) : Option Nat :=
  if 2 * d ≤ durationMaxNanos then some (2 * d) else none

/-- `CooldownState` from `src/lol_api/endpoint/mod.rs`: the instant cooldown
started and its estimated duration (both in nanoseconds). -/
structure CooldownState where
  start : Nat
  duration : Nat
  deriving Repr, DecidableEq

/-- `CooldownState::time_left()` as written in the source:
`self.start.elapsed().checked_sub(self.duration)`, i.e. it subtracts the
*duration* from the *elapsed* time (`elapsed - duration` when
`elapsed ≥ duration`, otherwise `None`). -/
def CooldownState.timeLeft (cd : CooldownState) (now : Nat) : Option Nat :=
  let sinceStarted := now - cd.start
  if cd.duration ≤ sinceStarted then some (sinceStarted - cd.duration) else none

/-- `CooldownState::is_expired()` as written in the source: `false` when
`time_left()` is `Some _`, `true` when it is `None`. -/
def CooldownState.isExpired (cd : CooldownState) (now : Nat) : Bool :=
  match cd.timeLeft now with
  | some _ => false
  | none => true

/-- `Status` from `src/lol_api/endpoint/mod.rs` (the source spells the first
variant `Unkown`). -/
inductive Status where
  | unkown
  | normal
  | cooldown (cd : CooldownState)
  | justOffCooldown (duration : Nat)
  deriving Repr, DecidableEq

/-- `RateLimitBucket` from `src/lol_api/endpoint/mod.rs`: observed count,
maximum count, and the estimated window start timestamp in milliseconds. -/
structure RateLimitBucket where
  count : Nat
  maxCount : Nat
  startTimestamp : Int
  deriving Repr, DecidableEq

/-- Association-list lookup modelling `HashMap::get` on the bucket table
(keys are the `u64` bucket window lengths in seconds). -/
def bfind : List (Nat × RateLimitBucket) → Nat → Option RateLimitBucket
  | [], _ => none
  | (k, b) :: rest, w => if k = w then some b else bfind rest w

/-- Association-list store modelling `HashMap::insert`-or-overwrite on the
bucket table: replaces the entry for the key if present, else appends it. -/
def bset : List (Nat × RateLimitBucket) → Nat → RateLimitBucket →
    List (Nat × RateLimitBucket)
  | [], k, v => [(k, v)]
  | (k', b) :: rest, k, v =>
      if k' = k then (k, v) :: rest else (k', b) :: bset rest k v

/-- `Endpoint` from `src/lol_api/endpoint/mod.rs`. -/
structure Endpoint where
  status : Status
  rateLimitBuckets : List (Nat × RateLimitBucket)
  lastUpdateTimestampMs : Int
  deriving Repr, DecidableEq

/-- `Endpoint::new()`: status `Unkown`, empty buckets, last update 0. -/
def Endpoint.new : Endpoint := ⟨Status.unkown, [], 0⟩

/-- The first loop of `Endpoint::update_buckets`: for each
`(limit, bucket_size)` pair, `entry(bucket_size).or_insert(...)` a bucket
with `count = 0`, `max_count = 0` and `start_timestamp` taken from
`chrono::Utc::now()` (the `now` parameter), then assign
`bucket.max_count = limit`. -/
def applyLimits (now : Int) : List (Nat × RateLimitBucket) → List (Nat × Nat) →
    List (Nat × RateLimitBucket)
  | m, [] => m
  | m, (limit, bucketSize) :: rest =>
      let b := (bfind m bucketSize).getD ⟨0, 0, now⟩
      applyLimits now (bset m bucketSize { b with maxCount := limit }) rest

/-- The second loop of `Endpoint::update_buckets`: for each
`(count, bucket_size)` pair, `get_mut(&bucket_size).unwrap()` the bucket
(`none` models the panic when the key is absent), set
`start_timestamp = timestamp` when the stored count exceeds the new one
(rollover detection), and store the new count. -/
def applyCounts (timestamp : Int) : List (Nat × RateLimitBucket) →
    List (Nat × Nat) → Option (List (Nat × RateLimitBucket))
  | m, [] => some m
  | m, (count, bucketSize) :: rest =>
      match bfind m bucketSize with
      | none => none
      | some b =>
          let b' : RateLimitBucket :=
            { b with
              startTimestamp := if count < b.count then timestamp else b.startTimestamp,
              count := count }
          applyCounts timestamp (bset m bucketSize b') rest

/-- `Endpoint::update_buckets(limits, counts, timestamp)`.  The table is
cleared first, so `applyLimits` starts from `[]`.  `now` models the
`chrono::Utc::now().timestamp_millis()` read performed when inserting a
fresh bucket.  `none` models the `unwrap` panic in the counts loop. -/
def Endpoint.updateBuckets (ep : Endpoint) (limits counts : List (Nat × Nat))
    (timestamp now : Int) : Option Endpoint :=
  let m := applyLimits now [] limits
  (applyCounts timestamp m counts).map
    (fun m2 => ⟨ep.status, m2, timestamp⟩)

/-- `Endpoint::update_status_pre_query()`: transition
`Cooldown(cd) → JustOffCooldown(cd.duration)` when `cd.is_expired()`,
leave every other status unchanged. -/
def Endpoint.updateStatusPreQuery (ep : Endpoint) (now : Nat) : Endpoint :=
  match ep.status with
  | Status.cooldown cd =>
      if cd.isExpired now then
        { ep with status := Status.justOffCooldown cd.duration }
      else ep
  | _ => ep

/-- `Endpoint::should_cooldown()`: scan the buckets; on the first bucket
with `count == max_count` return a fresh `CooldownState` with duration
`Duration::from_secs(bucket_size)` (i.e. `bucket_size * 10^9` nanoseconds),
started `now`.  (HashMap iteration order is modelled as list order.) -/
def shouldCooldownAux (now : Nat) : List (Nat × RateLimitBucket) →
    Option CooldownState
  | [] => none
  | (bucketSize, b) :: rest =>
      if b.count = b.maxCount then some ⟨now, bucketSize * 1000000000⟩
      else shouldCooldownAux now rest

def Endpoint.shouldCooldown (ep : Endpoint) (now : Nat) : Option CooldownState :=
  shouldCooldownAux now ep.rateLimitBuckets

/-- `Endpoint::set_status_normal_or_cooldown()`. -/
def Endpoint.setStatusNormalOrCooldown (ep : Endpoint) (now : Nat) : Endpoint :=
  match ep.shouldCooldown now with
  | some cd => { ep with status := Status.cooldown cd }
  | none => { ep with status := Status.normal }

/-- The reqwest status codes the endpoint state machine distinguishes. -/
inductive RespCode where
  | ok
  | tooManyRequests
  | other
  deriving Repr, DecidableEq

/-- `Endpoint::update_status_from_just_off_cooldown(status_code)`.  The
leading `assert!(matches!(self.status, Status::JustOffCooldown(_)))` is
modelled by returning `none` (panic) in any other status.  On 429 the new
cooldown duration is `prev_duration.checked_mul(2).unwrap()`: `none`
models the unwrap panic on overflow. -/
def Endpoint.updateStatusFromJustOffCooldown (ep : Endpoint) (code : RespCode)
    (now : Nat) : Option Endpoint :=
  match ep.status with
  | Status.justOffCooldown prevDuration =>
      match code with
      | RespCode.ok => some (ep.setStatusNormalOrCooldown now)
      | RespCode.tooManyRequests =>
          (checkedMul2 prevDuration).map
            (fun d => { ep with status := Status.cooldown ⟨now, d⟩ })
      | RespCode.other => some ep
  | _ => none

/-- `ErrorKind` from `src/lol_api/errors.rs`, restricted to the variants
`retry_time`/`can_retry` distinguish: `EndpointNotReady(status)` versus
everything else. -/
inductive ErrorKind where
  | endpointNotReady (status : Status)
  | otherErr
  deriving Repr, DecidableEq

/-- `Error::retry_time()`: for `EndpointNotReady(Cooldown(cd))` it returns
`cd.time_left()`; every other kind gives `None`. -/
def ErrorKind.retryTime (k : ErrorKind) (now : Nat) : Option Nat :=
  match k with
  | ErrorKind.endpointNotReady (Status.cooldown cd) => cd.timeLeft now
  | _ => none

/-- `Error::can_retry()`: `retry_time().is_some()`. -/
def ErrorKind.canRetry (k : ErrorKind) (now : Nat) : Bool :=
  (k.retryTime now).isSome

/-! ## Endpoint ids (`src/lol_api/endpoint/id.rs`) -/

/-- `Region` from `src/lol_api/endpoint/id.rs` (single variant `Na1 = 0`). -/
inductive Region where
  | na1
  deriving Repr, DecidableEq

/-- `Service` from `src/lol_api/endpoint/id.rs` (single variant
`SummonerV4 = 0`). -/
inductive Service where
  | summonerV4
  deriving Repr, DecidableEq

/-- The `as usize` value of a `Region`. -/
def Region.idx : Region → Nat
  | Region.na1 => 0

/-- The `as usize` value of a `Service`. -/
def Service.idx : Service → Nat
  | Service.summonerV4 => 0

/-- `REGION_COUNT`, generated from the `EnumCount` derive on `Region`. -/
def regionCount : Nat := 1

/-- `SERVICE_COUNT`, generated from the `EnumCount` derive on `Service`. -/
def serviceCount : Nat := 1

/-- `MAX_METHODS_PER_SERVICE` from `src/lol_api/endpoint/id.rs`. -/
def maxMethodsPerService : Nat := 128

/-- `Id` from `src/lol_api/endpoint/id.rs`: a `usize` newtype. -/
structure Id where
  val : Nat
  deriving Repr, DecidableEq

/-- `Id::from_region`. -/
def Id.fromRegion (region : Region) : Id := ⟨region.idx⟩

/-- `Id::from_service`. -/
def Id.fromService (region : Region) (service : Service) : Id :=
  ⟨regionCount + region.idx * serviceCount + service.idx⟩

/-- `Id::from_method` (`method` is the `u32` value of a service method). -/
def Id.fromMethod (service : Service) (method : Nat) : Id :=
  ⟨regionCount + serviceCount * regionCount +
    service.idx * maxMethodsPerService + method⟩

/-- `Id::is_region`: `self.0 < REGION_COUNT`. -/
def Id.isRegion (i : Id) : Bool := i.val < regionCount

/-- `Id::is_service` as written in the source:
`self.0 > REGION_COUNT && self.0 < REGION_COUNT + SERVICE_COUNT * REGION_COUNT`
(note the strict `>` on the lower end). -/
def Id.isService (i : Id) : Bool :=
  regionCount < i.val ∧ i.val < regionCount + serviceCount * regionCount

/-- `Id::is_method` as written in the source:
`self.0 > REGION_COUNT + SERVICE_COUNT * REGION_COUNT` (strict `>`). -/
def Id.isMethod (i : Id) : Bool :=
  regionCount + serviceCount * regionCount < i.val

/-! ## URI assembly (`src/lol_api/mod.rs`, `src/lol_api/services/match_v4.rs`) -/

/-- The string `format!("{:?}", region)` produces: the derived `Debug`
representation is the variant name verbatim. -/
def Region.debugName : Region → String
  | Region.na1 => "Na1"

/-- `Context::region_uri`: `format!("https://{:?}.api.riotgames.com", region)`. -/
def regionUri (region : Region) : String :=
  "https://" ++ region.debugName ++ ".api.riotgames.com"

/-- `match_v4::match_by_id_uri`:
`format!("/lol/match/v4/matches/{}", match_id)` with `match_id : i64`. -/
def matchByIdUri (matchId : Int) : String :=
  "/lol/match/v4/matches/" ++ toString matchId

/-- The URI `Context::_try_query_match_v4_match_by_id` performs its GET
against: `Self::region_uri(region) + &match_v4::match_by_id_uri(match_id)`. -/
def matchByIdFullUri (region : Region) (matchId : Int) : String :=
  regionUri region ++ matchByIdUri matchId

/-! ## Retry loop (`Context::query_with_retry`, `src/lol_api/mod.rs`) -/

/-- One invocation outcome of the async closure passed to
`query_with_retry`.  Since `Error::can_retry()` is defined as
`retry_time().is_some()`, an error is fully characterised for the retry
loop by the value its `retry_time()` returns at that moment; we carry that
`Option` directly.  `chain_err` only wraps the error message, so it is
modelled as the identity on outcomes. -/
inductive QueryOutcome (T : Type) where
  | ok (t : T)
  | err (retryTime : Option Nat)
  deriving Repr, DecidableEq

def QueryOutcome.isErr {T : Type} : QueryOutcome T → Bool
  | QueryOutcome.ok _ => false
  | QueryOutcome.err _ => true

/-- The `for _ in 0..retry_count` loop of `Context::query_with_retry`.
`ops k` is the outcome of the `k`-th invocation of `query_func` (0-based);
`fuel` is the number of loop iterations left, `res` the current result,
`calls` the number of invocations made so far, `sleeps` the list of
durations slept so far (each `tokio::time::delay_for(retry_time)`).
On `Ok` the loop returns early; on a retryable error it sleeps
`retry_time` first; on any error it then re-invokes `query_func`. -/
def queryWithRetryGo {T : Type} (ops : Nat → QueryOutcome T) :
    Nat → QueryOutcome T → Nat → List Nat → QueryOutcome T × Nat × List Nat
  | 0, res, calls, sleeps => (res, calls, sleeps)
  | fuel + 1, res, calls, sleeps =>
      match res with
      | QueryOutcome.ok t => (QueryOutcome.ok t, calls, sleeps)
      | QueryOutcome.err rt =>
          let sleeps' := match rt with
            | some d => sleeps ++ [d]
            | none => sleeps
          queryWithRetryGo ops fuel (ops calls) (calls + 1) sleeps'

/-- `Context::query_with_retry(retry_count, query_func)`: first invocation,
then the loop; the final result is returned (via `chain_err`, modelled as
identity).  Returns `(result, total invocations, sleeps performed)`. -/
def queryWithRetry {T : Type} (retryCount : Nat) (ops : Nat → QueryOutcome T) :
    QueryOutcome T × Nat × List Nat :=
  queryWithRetryGo ops retryCount (ops 0) 1 []

/-- The sleeps the retry loop performs for invocations `i, i+1, …, i+n-1`
when every one of them returns an error: one `retry_time` sleep per
retryable error, nothing for a non-retryable one. -/
def retrySleeps {T : Type} (ops : Nat → QueryOutcome T) : Nat → Nat → List Nat
  | _, 0 => []
  | i, n + 1 =>
      (match ops i with
       | QueryOutcome.err (some d) => [d]
       | _ => []) ++ retrySleeps ops (i + 1) n

/-! ## Crawler (`src/crawler/mod.rs`) -/

/-- `Crawler::reserve_new_match_id(matchlist)`: skip the leading match ids
already in the shared `found_match_ids` set; if a first unseen id exists,
insert it into the set and return it, else return `None`.  The `HashSet`
is modelled as the list of its elements. -/
def reserveNewMatchId (found : List Int) (matchIds : List Int) :
    Option Int × List Int :=
  match matchIds.dropWhile (fun m => found.contains m) with
  | [] => (none, found)
  | m :: _ => (some m, m :: found)

/-- The body of `Crawler::do_crawl_work`: record the current match id, and
while iterations remain (`i != match_count - 1`), reserve the next unseen
match id from the current match's participant matchlist —
`reserve_new_match_id(...).unwrap()`, where `none` models the panic when
no unseen id exists.  `matchlists m` stands for the matchlist fetched for
a participant of match `m`; queries themselves are assumed to succeed
(their failure is an `Err` return, not relevant here).  Returns the list
of recorded match ids, or `none` for a panic. -/
def doCrawlWork (matchlists : Int → List Int) :
    Nat → Int → List Int → Option (List Int)
  | 0, _, _ => some []
  | n + 1, matchId, found =>
      if n = 0 then some [matchId]
      else
        match reserveNewMatchId found (matchlists matchId) with
        | (none, _) => none
        | (some next, found') =>
            (doCrawlWork matchlists n next found').map
              (fun rs => matchId :: rs)

/-- `Crawler::start_crawl` after the seed summoner's matchlist is fetched:
`reserve_new_match_id(matchlist).unwrap()` (line 100 — `none` models the
panic when every id is already seen), then `do_crawl_work`. -/
def startCrawl (seedMatchlist : List Int) (matchlists : Int → List Int)
    (numSteps : Nat) (found : List Int) : Option (List Int) :=
  match reserveNewMatchId found seedMatchlist with
  | (none, _) => none
  | (some seed, found') => doCrawlWork matchlists numSteps seed found'

/-! ## Header parsing and `cache_rate_limits` (`src/lol_api/mod.rs`) -/

/-- `str::split(sep)` over the characters of a string: splits into the
(possibly empty) pieces between occurrences of `sep`. -/
def splitOnChar (sep : Char) : List Char → List (List Char)
  | [] => [[]]
  | c :: rest =>
      match splitOnChar sep rest with
      | [] => [[]]
      | grp :: grps =>
          if c = sep then [] :: grp :: grps else (c :: grp) :: grps

/-- `str::parse::<u64>()`: an optional leading `+`, then one or more
decimal digits, value within `u64` range; anything else is an error. -/
def parseU64 (cs : List Char) : Option Nat :=
  let t := match cs with
    | '+' :: rest => rest
    | _ => cs
  if t = [] then none
  else if t.all (fun ch => ch.isDigit) then
    let v := t.foldl (fun acc ch => acc * 10 + (ch.toNat - 48)) 0
    if v ≤ 18446744073709551615 then some v else none
  else none

/-- `Context::get_header_as_rate_limit` applied to a header value string:
split on `,`; each item is split on `:` and its first two pieces are
parsed as `u64` (an item with fewer than two pieces, or an unparsable
piece, is an error for the whole header). -/
def getHeaderAsRateLimit (s : String) : Option (List (Nat × Nat)) :=
  (splitOnChar ',' s.data).mapM
    (fun item =>
      match splitOnChar ':' item with
      | first :: second :: _ =>
          match parseU64 first, parseU64 second with
          | some n1, some n2 => some (n1, n2)
          | _, _ => none
      | _ => none)

/-- Outcome of `Context::cache_rate_limits` for one endpoint: a header
parse failure is an `Err` return, a missing bucket in `update_buckets`
is a panic, otherwise the updated endpoint. -/
inductive CacheOutcome where
  | parseFailed
  | panicked
  | updated (ep : Endpoint)
  deriving Repr, DecidableEq

/-- `Context::cache_rate_limits` restricted to a single endpoint: parse the
limit header and the count header independently, and — when the response
timestamp is newer than the endpoint's last update — call
`update_buckets(limits, counts, timestamp)` with no containment check
between the two parsed lists. -/
def cacheRateLimitsOne (ep : Endpoint) (limitHeader countHeader : String)
    (timestamp now : Int) : CacheOutcome :=
  match getHeaderAsRateLimit limitHeader with
  | none => CacheOutcome.parseFailed
  | some limits =>
      match getHeaderAsRateLimit countHeader with
      | none => CacheOutcome.parseFailed
      | some counts =>
          if ep.lastUpdateTimestampMs < timestamp then
            match ep.updateBuckets limits counts timestamp now with
            | none => CacheOutcome.panicked
            | some ep' => CacheOutcome.updated ep'
          else CacheOutcome.updated ep

/-! ## Spec-side definition for the `update_buckets` refinement claim -/

/-- Modelled from the spec's amended wording of the `update_buckets`
algorithm: clear the bucket set; for each `(max_count, window)` pair
directly insert a bucket with `count = 0`, that `max_count`, and
`window_start` taken from the local clock at call time; the counts pass
and the `last_update` assignment are word-for-word those of the code
(`applyCounts`). -/
def applyLimitsSpec (now : Int) : List (Nat × RateLimitBucket) →
    List (Nat × Nat) → List (Nat × RateLimitBucket)
  | m, [] => m
  | m, (limit, bucketSize) :: rest =>
      applyLimitsSpec now (bset m bucketSize ⟨0, limit, now⟩) rest

/-- The amended `update_buckets` specification assembled from
`applyLimitsSpec` and the shared counts pass. -/
def updateBucketsAmendedSpec (ep : Endpoint) (limits counts : List (Nat × Nat))
    (timestamp now : Int) : Option Endpoint :=
  let m := applyLimitsSpec now [] limits
  (applyCounts timestamp m counts).map
    (fun m2 => ⟨ep.status, m2, timestamp⟩)

/-! ## Association-list lemmas for the bucket table -/

theorem bfind_eq_some_mem {m : List (Nat × RateLimitBucket)} {w : Nat}
    {b : RateLimitBucket} (h : bfind m w = some b) : (w, b) ∈ m := by
  induction m with
  | nil => simp [bfind] at h
  | cons hd tl ih =>
      obtain ⟨k, v⟩ := hd
      by_cases hk : k = w
      · subst hk
        simp [bfind] at h
        subst h
        exact List.mem_cons_self _ _
      · simp [bfind, hk] at h
        exact List.mem_cons_of_mem _ (ih h)

theorem mem_bset {m : List (Nat × RateLimitBucket)} {k : Nat}
    {v : RateLimitBucket} {pb : Nat × RateLimitBucket}
    (h : pb ∈ bset m k v) : pb = (k, v) ∨ pb ∈ m := by
  induction m with
  | nil => simpa [bset] using h
  | cons hd tl ih =>
      obtain ⟨k', b⟩ := hd
      by_cases hk : k' = k
      · subst hk
        simp [bset] at h
        rcases h with h | h
        · exact Or.inl h
        · exact Or.inr (List.mem_cons_of_mem _ h)
      · simp [bset, hk] at h
        rcases h with h | h
        · exact Or.inr (by simp [h])
        · rcases ih h with h' | h'
          · exact Or.inl h'
          · exact Or.inr (List.mem_cons_of_mem _ h')

theorem bfind_bset (m : List (Nat × RateLimitBucket)) (k : Nat)
    (v : RateLimitBucket) (w : Nat) :
    bfind (bset m k v) w = if w = k then some v else bfind m w := by
  induction m with
  | nil =>
      rcases eq_or_ne w k with hw | hw
      · subst hw; simp [bset, bfind]
      · simp [bset, bfind, hw, hw.symm]
  | cons hd tl ih =>
      obtain ⟨k', b⟩ := hd
      by_cases hk : k' = k
      · subst hk
        rcases eq_or_ne w k' with hw | hw
        · subst hw; simp [bset, bfind]
        · simp [bset, bfind, hw, hw.symm]
      · by_cases hw' : k' = w
        · subst hw'
          simp [bset, bfind, hk, Ne.symm hk]
        · simp [bset, bfind, hk, hw', ih]

theorem bfind_bset_isSome (m : List (Nat × RateLimitBucket)) (k : Nat)
    (v : RateLimitBucket) (w : Nat) :
    (bfind (bset m k v) w).isSome = ((bfind m w).isSome || decide (w = k)) := by
  rw [bfind_bset]
  by_cases hw : w = k <;> simp [hw]

/-! ## Behaviour of the limits pass -/

theorem applyLimits_inv (ls : List (Nat × Nat)) :
    ∀ (m : List (Nat × RateLimitBucket)) (now : Int),
    (∀ pb ∈ m, pb.2.count = 0) →
    ∀ pb ∈ applyLimits now m ls,
      pb.2.count = 0 ∧ ((pb.2.maxCount, pb.1) ∈ ls ∨ pb ∈ m) := by
  induction ls with
  | nil =>
      intro m now h0 pb hm
      exact ⟨h0 pb hm, Or.inr hm⟩
  | cons hd rest ih =>
      intro m now h0 pb hm
      obtain ⟨limit, w⟩ := hd
      simp only [applyLimits] at hm
      set b0 : RateLimitBucket := (bfind m w).getD ⟨0, 0, now⟩ with hb0
      have hb0count : b0.count = 0 := by
        rcases hfind : bfind m w with _ | b
        · simp [hb0, hfind]
        · have := h0 _ (bfind_eq_some_mem hfind)
          simpa [hb0, hfind] using this
      have h0' : ∀ pb' ∈ bset m w { b0 with maxCount := limit },
          pb'.2.count = 0 := by
        intro pb' hpb'
        rcases mem_bset hpb' with h | h
        · simp [h, hb0count]
        · exact h0 pb' h
      have := ih (bset m w { b0 with maxCount := limit }) now h0' pb hm
      refine ⟨this.1, ?_⟩
      rcases this.2 with h | h
      · exact Or.inl (List.mem_cons_of_mem _ h)
      · rcases mem_bset h with h' | h'
        · subst h'
          exact Or.inl (by simp)
        · exact Or.inr h'

theorem bfind_applyLimits_isSome (ls : List (Nat × Nat)) :
    ∀ (m : List (Nat × RateLimitBucket)) (now : Int) (w : Nat),
    (bfind (applyLimits now m ls) w).isSome ↔
      ((bfind m w).isSome ∨ w ∈ ls.map Prod.snd) := by
  induction ls with
  | nil => intro m now w; simp [applyLimits]
  | cons hd rest ih =>
      intro m now w
      obtain ⟨limit, w'⟩ := hd
      simp only [applyLimits]
      rw [ih]
      rw [bfind_bset_isSome]
      rcases eq_or_ne w w' with hw | hw
      · simp [hw]
      · simp [hw]

/-! ## Behaviour of the counts pass -/

theorem applyCounts_isSome (cs : List (Nat × Nat)) :
    ∀ (t : Int) (m : List (Nat × RateLimitBucket)),
    (applyCounts t m cs).isSome ↔ ∀ p ∈ cs, (bfind m p.2).isSome := by
  induction cs with
  | nil => intro t m; simp [applyCounts]
  | cons hd rest ih =>
      intro t m
      obtain ⟨c, w⟩ := hd
      rcases hfind : bfind m w with _ | b
      · simp only [applyCounts, hfind]
        constructor
        · intro h; simp at h
        · intro h
          have := h (c, w) (List.mem_cons_self _ _)
          simp [hfind] at this
      · simp only [applyCounts, hfind]
        rw [ih]
        constructor
        · intro h p hp
          rcases List.mem_cons.mp hp with h' | h'
          · simp [h', hfind]
          · have := h p h'
            rw [bfind_bset_isSome] at this
            by_cases hpw : p.2 = w
            · simp [hpw, hfind]
            · simpa [hpw] using this
        · intro h p hp
          rw [bfind_bset_isSome]
          have := h p (List.mem_cons_of_mem _ hp)
          simp [this]

theorem applyCounts_entries (cs : List (Nat × Nat)) :
    ∀ (t : Int) (m m' : List (Nat × RateLimitBucket)),
    applyCounts t m cs = some m' →
    ∀ pb ∈ m', ∃ b, (pb.1, b) ∈ m ∧ b.maxCount = pb.2.maxCount ∧
      (pb.2.count = b.count ∨ (pb.2.count, pb.1) ∈ cs) := by
  induction cs with
  | nil =>
      intro t m m' h pb hm
      simp only [applyCounts] at h
      cases h
      exact ⟨pb.2, by simpa using hm, rfl, Or.inl rfl⟩
  | cons hd rest ih =>
      intro t m m' h pb hm
      obtain ⟨c, w⟩ := hd
      rcases hfind : bfind m w with _ | b
      · simp [applyCounts, hfind] at h
      · simp only [applyCounts, hfind] at h
        obtain ⟨b1, hb1mem, hb1max, hb1count⟩ := ih t _ m' h pb hm
        rcases mem_bset hb1mem with h' | h'
        · -- the entry is the one updated for window `w`
          have hk : pb.1 = w := congrArg Prod.fst h'
          have hv : b1 = { b with
              startTimestamp := if c < b.count then t else b.startTimestamp,
              count := c } := congrArg Prod.snd h'
          refine ⟨b, ?_, ?_, ?_⟩
          · rw [hk]; exact bfind_eq_some_mem hfind
          · rw [← hb1max, hv]
          · rcases hb1count with hc | hc
            · refine Or.inr ?_
              rw [hc, hv, hk]
              simp
            · exact Or.inr (List.mem_cons_of_mem _ hc)
        · refine ⟨b1, h', hb1max, ?_⟩
          rcases hb1count with hc | hc
          · exact Or.inl hc
          · exact Or.inr (List.mem_cons_of_mem _ hc)

/-! ## The limits pass agrees with the amended direct-insert description -/

theorem applyLimits_eq_spec (ls : List (Nat × Nat)) :
    ∀ (m : List (Nat × RateLimitBucket)) (now : Int),
    (∀ pb ∈ m, pb.2.count = 0 ∧ pb.2.startTimestamp = now) →
    applyLimits now m ls = applyLimitsSpec now m ls := by
  induction ls with
  | nil => intro m now _; rfl
  | cons hd rest ih =>
      intro m now hinv
      obtain ⟨limit, w⟩ := hd
      simp only [applyLimits, applyLimitsSpec]
      set b0 : RateLimitBucket := (bfind m w).getD ⟨0, 0, now⟩ with hb0
      have hb0eq : ({ b0 with maxCount := limit } : RateLimitBucket) =
          ⟨0, limit, now⟩ := by
        rcases hfind : bfind m w with _ | b
        · simp [hb0, hfind]
        · have := hinv _ (bfind_eq_some_mem hfind)
          simp [hb0, hfind]
          exact ⟨this.1, this.2⟩
      rw [hb0eq]
      refine ih _ now ?_
      intro pb hpb
      rcases mem_bset hpb with h | h
      · simp [h]
      · exact hinv pb h

/-! ## Behaviour of the retry loop -/

theorem queryWithRetryGo_allErr {T : Type} (ops : Nat → QueryOutcome T)
    (herr : ∀ k, (ops k).isErr = true) :
    ∀ (fuel i : Nat) (sleeps : List Nat),
    queryWithRetryGo ops fuel (ops i) (i + 1) sleeps =
      (ops (i + fuel), i + fuel + 1, sleeps ++ retrySleeps ops i fuel) := by
  intro fuel
  induction fuel with
  | zero => intro i sleeps; simp [queryWithRetryGo, retrySleeps]
  | succ n ih =>
      intro i sleeps
      rcases hop : ops i with t | rt
      · have := herr i
        rw [hop] at this
        simp [QueryOutcome.isErr] at this
      · simp only [queryWithRetryGo, hop]
        have harith : i + 1 + n = i + (n + 1) := by omega
        rcases rt with _ | d
        · rw [ih (i + 1) sleeps]
          simp [retrySleeps, hop, harith]
        · rw [ih (i + 1) (sleeps ++ [d])]
          simp [retrySleeps, hop, harith]

/-- `update_buckets` completes (does not panic) exactly when every window
length appearing in `counts` also appears in `limits`. -/
theorem updateBuckets_isSome_iff (ep : Endpoint) (limits counts : List (Nat × Nat))
    (t now : Int) :
    (ep.updateBuckets limits counts t now).isSome ↔
      ∀ p ∈ counts, p.2 ∈ limits.map Prod.snd := by
  simp only [Endpoint.updateBuckets, Option.isSome_map']
  rw [applyCounts_isSome]
  constructor
  · intro h p hp
    have := h p hp
    rw [bfind_applyLimits_isSome] at this
    simpa [bfind] using this
  · intro h p hp
    rw [bfind_applyLimits_isSome]
    exact Or.inr (h p hp)

/-! ## Claim theorems -/

/-- C1: the claim says `update_status_pre_query()` moves an expired
cooldown (elapsed ≥ duration) to `JustOffCooldown` and leaves a live
cooldown alone.  The code does the opposite, because
`CooldownState::time_left` computes `elapsed − duration` instead of
`duration − elapsed`, inverting `is_expired`: with a 5 s cooldown started
at instant 0, at `now = 10 s` (expired) the status stays `Cooldown`, while
at `now = 2 s` (still live) it transitions to `JustOffCooldown(5 s)`. -/
theorem c1_pre_query_transition_inverted :
    (({ Endpoint.new with
        status := Status.cooldown ⟨0, 5000000000⟩ } : Endpoint).updateStatusPreQuery
          10000000000).status = Status.cooldown ⟨0, 5000000000⟩ ∧
    (({ Endpoint.new with
        status := Status.cooldown ⟨0, 5000000000⟩ } : Endpoint).updateStatusPreQuery
          2000000000).status = Status.justOffCooldown 5000000000 := by
  decide

/-- C2: the claim says `retry_time()` on `EndpointNotReady(Cooldown)` is the
remaining cooldown `max(0, duration − elapsed)` and `can_retry()` is true
iff that remainder is non-zero.  In the code `time_left` returns the
overshoot `elapsed − duration` (None while time actually remains): with a
5 s cooldown started at 0, at `now = 1 s` (4 s remain) `can_retry` is
`false` and `retry_time` is `none`; at `now = 7 s` (nothing remains)
`can_retry` is `true` and `retry_time` is `some 2 s`. -/
theorem c2_retry_time_is_overshoot :
    (ErrorKind.endpointNotReady (Status.cooldown ⟨0, 5000000000⟩)).canRetry
        1000000000 = false ∧
    (ErrorKind.endpointNotReady (Status.cooldown ⟨0, 5000000000⟩)).retryTime
        1000000000 = none ∧
    (ErrorKind.endpointNotReady (Status.cooldown ⟨0, 5000000000⟩)).canRetry
        7000000000 = true ∧
    (ErrorKind.endpointNotReady (Status.cooldown ⟨0, 5000000000⟩)).retryTime
        7000000000 = some 2000000000 := by
  decide

/-- C3 counterexample: with `retry_count = 1` and an operation that always
returns a non-retryable error (`can_retry()` false, i.e. `retry_time()`
none), `query_with_retry` invokes the operation twice — it does not return
the non-retryable error immediately after the first invocation as the
claim states. -/
theorem c3_nonretryable_error_reinvoked :
    queryWithRetry 1 (fun _ => (QueryOutcome.err none : QueryOutcome Nat)) =
      (QueryOutcome.err none, 2, []) ∧
    (queryWithRetry 1 (fun _ => (QueryOutcome.err none : QueryOutcome Nat))).2.1 ≠ 1 := by
  decide

/-- C3 amended: an error outcome — retryable or not — never short-circuits
`query_with_retry`: after each error the operation is re-invoked, up to
`retry_count` additional attempts (so `retry_count + 1` invocations when
every outcome is an error), with a sleep of `retry_time()` before the
re-invocation exactly when the error is retryable; only an `Ok` outcome
returns early, after a single invocation when it is the first. -/
theorem c3_retry_loop_behavior {T : Type} (n : Nat) (ops : Nat → QueryOutcome T) :
    ((∀ k, (ops k).isErr = true) →
      queryWithRetry n ops = (ops n, n + 1, retrySleeps ops 0 n)) ∧
    (∀ t : T, ops 0 = QueryOutcome.ok t →
      queryWithRetry n ops = (QueryOutcome.ok t, 1, [])) := by
  constructor
  · intro herr
    have := queryWithRetryGo_allErr ops herr n 0 []
    simpa [queryWithRetry] using this
  · intro t h
    cases n with
    | zero => simp [queryWithRetry, queryWithRetryGo, h]
    | succ n => simp [queryWithRetry, queryWithRetryGo, h]

/-- C3 witness: both branches of the amended statement at concrete inputs:
two retryable failures with `retry_time = 5` are slept through and the
operation runs `2 + 1` times; an immediate `Ok 7` returns after one
invocation with no sleeps. -/
theorem c3_retry_loop_behavior_witness :
    queryWithRetry 2 (fun _ => (QueryOutcome.err (some 5) : QueryOutcome Nat)) =
      (QueryOutcome.err (some 5), 3, [5, 5]) ∧
    queryWithRetry 2 (fun _ => (QueryOutcome.ok 7 : QueryOutcome Nat)) =
      (QueryOutcome.ok 7, 1, []) := by
  constructor
  · simpa using
      (c3_retry_loop_behavior 2 (fun _ => (QueryOutcome.err (some 5) :
        QueryOutcome Nat))).1 (fun _ => rfl)
  · exact (c3_retry_loop_behavior 2 (fun _ => (QueryOutcome.ok 7 :
      QueryOutcome Nat))).2 7 rfl

/-- C4 counterexample: the doubling on 429 is
`prev_duration.checked_mul(2).unwrap()` — neither saturating nor capped.
At the largest representable duration the checked multiply returns `None`
and the `unwrap` panics, so the transition does not succeed for every `d`
as the claim states. -/
theorem c4_429_at_max_duration_panics :
    ({ Endpoint.new with
        status := Status.justOffCooldown durationMaxNanos } : Endpoint).updateStatusFromJustOffCooldown
          RespCode.tooManyRequests 0 = none := by
  decide

/-- C4 amended: processing a 429 in `JustOffCooldown(d)` sets the status to
`Cooldown` with duration exactly `2·d` (no cap), computed by a checked
multiply; the transition succeeds precisely for every `d` whose double is
representable, and panics otherwise. -/
theorem c4_429_doubles_cooldown (ep : Endpoint) (d now : Nat)
    (hs : ep.status = Status.justOffCooldown d)
    (hle : 2 * d ≤ durationMaxNanos) :
    ep.updateStatusFromJustOffCooldown RespCode.tooManyRequests now =
      some { ep with status := Status.cooldown ⟨now, 2 * d⟩ } := by
  simp [Endpoint.updateStatusFromJustOffCooldown, hs, checkedMul2, hle]

/-- C4 witness: a 5 ns `JustOffCooldown` hit by a 429 at instant 3 moves to
a cooldown of 10 ns started at 3. -/
theorem c4_429_doubles_cooldown_witness :
    ({ Endpoint.new with
        status := Status.justOffCooldown 5 } : Endpoint).updateStatusFromJustOffCooldown
          RespCode.tooManyRequests 3 =
      some { Endpoint.new with status := Status.cooldown ⟨3, 10⟩ } :=
  c4_429_doubles_cooldown _ 5 3 rfl (by decide)

/-- C5 counterexample: `update_buckets` never clamps a reported count to the
bucket's limit: with `limits = [(5, 60)]` and `counts = [(10, 60)]` the
resulting bucket has `count = 10 > 5 = max_count`, violating the claimed
invariant `count ≤ max_count` for arbitrary inputs. -/
theorem c5_count_can_exceed_max :
    Endpoint.new.updateBuckets [(5, 60)] [(10, 60)] 0 7 =
      some ⟨Status.unkown, [(60, ⟨10, 5, 7⟩)], 0⟩ ∧
    (⟨10, 5, 7⟩ : RateLimitBucket).maxCount < (⟨10, 5, 7⟩ : RateLimitBucket).count := by
  decide

/-- C5 amended: after `update_buckets(limits, counts, t)` every bucket
satisfies `count ≤ max_count` (the lower bound `0 ≤ count` is inherent in
the unsigned type), provided every window in `counts` appears in `limits`
and no reported count exceeds a limit given for the same window. -/
theorem c5_buckets_bounded (ep : Endpoint) (limits counts : List (Nat × Nat))
    (t now : Int)
    (hin : ∀ p ∈ counts, p.2 ∈ limits.map Prod.snd)
    (hbound : ∀ p ∈ counts, ∀ q ∈ limits, q.2 = p.2 → p.1 ≤ q.1) :
    ∃ ep', ep.updateBuckets limits counts t now = some ep' ∧
      ∀ pb ∈ ep'.rateLimitBuckets, pb.2.count ≤ pb.2.maxCount := by
  have hsome : (applyCounts t (applyLimits now [] limits) counts).isSome := by
    rw [applyCounts_isSome]
    intro p hp
    rw [bfind_applyLimits_isSome]
    exact Or.inr (hin p hp)
  obtain ⟨m2, hm2⟩ := Option.isSome_iff_exists.mp hsome
  refine ⟨⟨ep.status, m2, t⟩, ?_, ?_⟩
  · simp [Endpoint.updateBuckets, hm2]
  · intro pb hpb
    obtain ⟨b, hbmem, hbmax, hbcount⟩ :=
      applyCounts_entries counts t _ m2 hm2 pb hpb
    have hinv := applyLimits_inv limits [] now (by simp) (pb.1, b) hbmem
    have hmaxmem : (b.maxCount, pb.1) ∈ limits := by
      rcases hinv.2 with h | h
      · exact h
      · simp at h
    rcases hbcount with hc | hc
    · rw [hc, hinv.1]
      exact Nat.zero_le _
    · have := hbound (pb.2.count, pb.1) hc (b.maxCount, pb.1) hmaxmem rfl
      simpa [hbmax] using this

/-- C5 witness: with `limits = [(5, 60)]`, `counts = [(3, 60)]` (window
present and count within limit) the call succeeds and every bucket
respects its bound. -/
theorem c5_buckets_bounded_witness :
    ∃ ep', Endpoint.new.updateBuckets [(5, 60)] [(3, 60)] 0 7 = some ep' ∧
      ∀ pb ∈ ep'.rateLimitBuckets, pb.2.count ≤ pb.2.maxCount :=
  c5_buckets_bounded Endpoint.new [(5, 60)] [(3, 60)] 0 7
    (by decide) (by decide)

/-- C6 counterexample: a freshly inserted bucket's `start_timestamp` comes
from `chrono::Utc::now()` (the local clock, here 7), not from the
observation timestamp argument (here 0): the claim's "window_start equal
to the observation timestamp t" is false whenever the two differ. -/
theorem c6_fresh_bucket_uses_wall_clock :
    Endpoint.new.updateBuckets [(5, 60)] [] 0 7 =
      some ⟨Status.unkown, [(60, ⟨0, 5, 7⟩)], 0⟩ ∧
    (⟨0, 5, 7⟩ : RateLimitBucket).startTimestamp ≠ (0 : Int) := by
  decide

/-- C6 amended: `update_buckets` performs exactly the claimed steps except
that a freshly inserted bucket's `window_start` is the local wall clock at
call time (`now`), not the observation timestamp: the code equals, on all
inputs, the amended step-by-step description (clear; insert
`⟨0, max_count, now⟩` per limit; locate each count's bucket, set
`window_start = t` on rollover and store the count, panicking when the
bucket is missing; finally set `last_update = t`). -/
theorem c6_update_buckets_matches_amended_spec (ep : Endpoint)
    (limits counts : List (Nat × Nat)) (t now : Int) :
    ep.updateBuckets limits counts t now =
      updateBucketsAmendedSpec ep limits counts t now := by
  unfold Endpoint.updateBuckets updateBucketsAmendedSpec
  rw [applyLimits_eq_spec limits [] now (by simp)]

/-- C7: the tier predicates use strict `>` where the packed ranges begin,
so the very first service id (`from_service(Na1, SummonerV4)`, value
`REGION_COUNT`) satisfies none of `is_region`/`is_service`/`is_method`,
and the first method id of a service (`from_method(SummonerV4, 0)`, the
lower boundary of the method range) fails `is_method` — contradicting the
claim (and the predicates' own documentation) that every constructed id
answers its tier predicate with true. -/
theorem c7_tier_predicates_miss_boundaries :
    Id.isService (Id.fromService Region.na1 Service.summonerV4) = false ∧
    Id.isRegion (Id.fromService Region.na1 Service.summonerV4) = false ∧
    Id.isMethod (Id.fromService Region.na1 Service.summonerV4) = false ∧
    Id.isMethod (Id.fromMethod Service.summonerV4 0) = false ∧
    Id.isRegion (Id.fromRegion Region.na1) = true ∧
    Id.isMethod (Id.fromMethod Service.summonerV4 1) = true := by
  decide

/-- C8: `region_uri` renders the region with `{:?}` (derived `Debug`), which
prints the variant name `Na1` verbatim, so the GET URI for match 123 is
`https://Na1.api.riotgames.com/...` — not the lowercase host the claim
(and the function's own doc comment) state. -/
theorem c8_match_uri_uses_debug_case :
    matchByIdFullUri Region.na1 123 =
      "https://Na1.api.riotgames.com/lol/match/v4/matches/123" ∧
    matchByIdFullUri Region.na1 123 ≠
      "https://na1.api.riotgames.com/lol/match/v4/matches/123" := by
  constructor
  · rfl
  · decide

/-- C9: when every match id in the fetched matchlist is already in the
shared seen set, `reserve_new_match_id` returns `None`, and both
`start_crawl` (line 100) and `do_crawl_work` (line 198) call `.unwrap()`
on that `None` — a panic (modelled as `none`), not the clean halt the
claim (and `do_crawl_work`'s doc, which promises an `Err` on a dead end)
describe. -/
theorem c9_all_seen_matchlist_panics :
    reserveNewMatchId [10] [10] = (none, [10]) ∧
    startCrawl [10] (fun _ => [10]) 2 [10] = none ∧
    doCrawlWork (fun _ => [10]) 2 10 [10] = none :=
  ⟨rfl, rfl, rfl⟩

/-- C10: `update_buckets(limits, counts, t)` completes without panicking if
and only if every window length in `counts` also occurs in `limits`
(otherwise the `get_mut(..).unwrap()` in the counts loop panics); and
`cache_rate_limits` parses the limit and count headers independently and
passes them straight to `update_buckets`, so a well-formed header pair
violating the containment makes it panic rather than return an error. -/
theorem c10_update_buckets_panics_on_missing_window :
    (∀ (ep : Endpoint) (limits counts : List (Nat × Nat)) (t now : Int),
      (ep.updateBuckets limits counts t now).isSome ↔
        ∀ p ∈ counts, p.2 ∈ limits.map Prod.snd) ∧
    (∀ (ep : Endpoint) (h1 h2 : String) (limits counts : List (Nat × Nat))
        (t now : Int),
      getHeaderAsRateLimit h1 = some limits →
      getHeaderAsRateLimit h2 = some counts →
      ep.lastUpdateTimestampMs < t →
      ¬ (∀ p ∈ counts, p.2 ∈ limits.map Prod.snd) →
      cacheRateLimitsOne ep h1 h2 t now = CacheOutcome.panicked) := by
  constructor
  · exact updateBuckets_isSome_iff
  · intro ep h1 h2 limits counts t now hp1 hp2 hlt hnc
    have hnone : ep.updateBuckets limits counts t now = none := by
      rcases h : ep.updateBuckets limits counts t now with _ | ep'
      · rfl
      · exact absurd ((updateBuckets_isSome_iff ep limits counts t now).mp
          (by simp [h])) hnc
    simp [cacheRateLimitsOne, hp1, hp2, hlt, hnone]

/-- C10 witness: headers `X-...-Limit: 5:60` and `X-...-Limit-Count: 7:10`
parse fine, but window 10 has no limit bucket, so the cache step panics. -/
theorem c10_update_buckets_panics_witness :
    cacheRateLimitsOne Endpoint.new "5:60" "7:10" 5 0 = CacheOutcome.panicked :=
  c10_update_buckets_panics_on_missing_window.2 Endpoint.new "5:60" "7:10"
    [(5, 60)] [(7, 10)] 5 0 (by decide) (by decide) (by decide) (by decide)

end LolMatchCrawler
